import Mathlib

/-!
Verification of the layered image-composition engine of the
screenshot-showcase repository.  The Python sources
(`scripts/approach_10_hybrid.py`, `scripts/approach_3d_parallax.py`,
`scripts/approach_01_pil_mesh.py`, `scripts/approach_08_storytelling.py`)
are shallowly embedded below: pure helpers become Lean functions, Python
floats become exact rationals, Python `int(...)` truncation becomes an
integer floor (all truncated values here are nonnegative), and the seeded
global random generator becomes explicit state passing with an abstract
linear-congruential step.  External PIL operations (Lanczos resampling,
Gaussian blur, font metrics, glyph rasterisation) are parameters of the
embedding, constrained only by the minimal contracts the claims need.
-/

/-! ## Colors and hex parsing (approach_10_hybrid.py `hex_to_rgb`, lines 36-38) -/

/-- Decode one hexadecimal digit, as accepted by Python `int(s, 16)`
(codepoints 48-57 are `0`-`9`, 97-102 are `a`-`f`, 65-70 are `A`-`F`). -/
def hexDigit (c : Char) : Option Nat :=
  let n := c.toNat
  if 48 ≤ n ∧ n ≤ 57 then some (n - 48)
  else if 97 ≤ n ∧ n ≤ 102 then some (n - 87)
  else if 65 ≤ n ∧ n ≤ 70 then some (n - 55)
  else none

/-- ASCII whitespace accepted (and stripped) by Python `int(s, 16)`:
space, tab, newline, vertical tab, form feed, carriage return. -/
def isPyWs (c : Char) : Bool :=
  c = ' ' || c = '\t' || c = '\n' || c = '\x0b' || c = '\x0c' || c = '\r'

/-- Strip the whitespace Python `int` ignores at both ends. -/
def stripPyWs (cs : List Char) : List Char :=
  ((cs.dropWhile isPyWs).reverse.dropWhile isPyWs).reverse

/-- Hex digit run with single underscores allowed between digits (`1_2`
parses; `_1`, `1_` and `1__2` do not); `lastDigit` records whether the
previous character was a digit, starting `true` only after an `0x`
prefix, where a leading underscore is legal. -/
def hexDigitsU : List Char → ℤ → Bool → Option ℤ
  | [], acc, lastDigit => if lastDigit then some acc else none
  | c :: rest, acc, lastDigit =>
    if c = '_' then
      if lastDigit then hexDigitsU rest acc false else none
    else
      match hexDigit c with
      | some d => hexDigitsU rest (16 * acc + (d : ℤ)) true
      | none => none

/-- Python `int(s, 16)` on an ASCII string: optional surrounding
whitespace, an optional sign, an optional `0x`/`0X` prefix, then a
nonempty underscore-separated hex digit run; the result may be negative.
(Python first maps non-ASCII decimal digits and spaces to ASCII; the
slices `hex_to_rgb` produces are at most two characters, and the
theorems below only exercise ASCII inputs.) -/
def pyIntHex (cs : List Char) : Option ℤ :=
  let cs1 := stripPyWs cs
  let sign : ℤ := if cs1.head? = some '-' then -1 else 1
  let cs2 := if cs1.head? = some '+' ∨ cs1.head? = some '-' then cs1.tail else cs1
  let pfx : Bool := decide (cs2.head? = some '0' ∧
    (cs2.tail.head? = some 'x' ∨ cs2.tail.head? = some 'X'))
  let cs3 := if pfx then cs2.tail.tail else cs2
  if pfx ∧ cs3 = [] then none
  else
    match hexDigitsU cs3 0 pfx with
    | some v => some (sign * v)
    | none => none

/-- Embedding of `hex_to_rgb` (approach_10_hybrid.py lines 36-38 and the
identical copies in the other scripts): strip every leading hash, then
apply `int(., 16)` to the three character slices `[0:2]`, `[2:4]`,
`[4:6]`.  `none` models the `ValueError` escaping from `int`; since
`int` accepts signs and whitespace, channels can come back negative. -/
def hex_to_rgb (s : String) : Option (ℤ × ℤ × ℤ) := do
  let cs := s.data.dropWhile (· = '#')
  let r ← pyIntHex ((cs.drop 0).take 2)
  let g ← pyIntHex ((cs.drop 2).take 2)
  let b ← pyIntHex ((cs.drop 4).take 2)
  pure (r, g, b)

/-- Total variant used where the callers only ever pass six-hex-digit
palette literals, on which the channels are in `[0, 255]`. -/
def hex_to_rgb_d (s : String) : Nat × Nat × Nat :=
  match hex_to_rgb s with
  | some (r, g, b) => (r.toNat, g.toNat, b.toNat)
  | none => (0, 0, 0)

/-- Modelled from the spec: the spec-side well-formedness predicate of
`parseColor` — exactly six hexadecimal digits after the optional leading
hash characters.  Kept separate from `hex_to_rgb` (which follows the
source) so the two can be compared. -/
def specSixHex (s : String) : Bool :=
  let cs := s.data.dropWhile (· = '#')
  cs.length = 6 && cs.all (fun c => (hexDigit c).isSome)

/-! ## Auto-contrast text color (approach_10_hybrid.py lines 78-82) -/

/-- The exact (infinite-precision) value of the luminance expression of
`get_text_color`, normalized to [0,1].  The program evaluates the same
expression in IEEE-754 doubles — see `luminance_float` below — which can
land on the other side of 1/2 when the exact value is exactly 1/2. -/
def luminance (c : Nat × Nat × Nat) : ℚ :=
  ((299 : ℚ) / 1000 * c.1 + 587 / 1000 * c.2.1 + 114 / 1000 * c.2.2) / 255

/-- Threshold selector of `get_text_color` over the exact luminance; an
idealization adequate away from the 1/2 boundary.  It is kept for the
pipeline embedding, whose palette literals are far from the boundary;
the boundary-faithful model is `get_text_color_float` below. -/
def get_text_color (c : Nat × Nat × Nat) : Nat × Nat × Nat :=
  if luminance c < 1 / 2 then (255, 255, 255) else (30, 30, 30)

/-! ## IEEE-754 double-precision emulation

`get_text_color` (approach_10_hybrid.py lines 78-82) computes
`(0.299 * r + 0.587 * g + 0.114 * b) / 255 < 0.5` in Python floats.  A
finite nonnegative double is represented exactly as a pair `⟨m, e⟩` of
value `m * 2 ^ e` with `m ∈ [2^52, 2^53]` or `m = 0`; every operation
rounds its exact rational result to 53 significant bits with round to
nearest, ties to even — IEEE-754 binary64 arithmetic on this domain,
which sits far from overflow and subnormals. -/

/-- Number of doublings taking `n` to at least `target` (fuel-bounded;
the fuel is ample for every magnitude arising here). -/
def upBits : Nat → ℤ → ℤ → Nat
  | 0, _, _ => 0
  | fuel + 1, n, target => if target ≤ n then 0 else upBits fuel (2 * n) target + 1

/-- Number of doublings of `target` putting `n` strictly below it
(fuel-bounded). -/
def downBits : Nat → ℤ → ℤ → Nat
  | 0, _, _ => 0
  | fuel + 1, n, target => if n < target then 0 else downBits fuel n (2 * target) + 1

/-- A nonnegative binary64 value `m * 2 ^ e`. -/
structure FP where
  m : ℤ
  e : ℤ
deriving DecidableEq, Repr

/-- Round the exact nonnegative rational `n / d` to the nearest double,
ties to even: scale `n / d` into `[2 ^ 52, 2 ^ 53)` and round the scaled
value to an integer significand. -/
def fpOfRat (n d : ℤ) : FP :=
  if n = 0 then ⟨0, 0⟩
  else
    let u := upBits 200 n (2 ^ 52 * d)
    let v := downBits 200 (n * 2 ^ u) (2 ^ 53 * d)
    let nn := n * 2 ^ u
    let dd := d * 2 ^ v
    let q := nn / dd
    let r := nn % dd
    let mm :=
      if 2 * r < dd then q
      else if dd < 2 * r then q + 1
      else if q % 2 = 0 then q else q + 1
    ⟨mm, (v : ℤ) - (u : ℤ)⟩

/-- Round `n * 2 ^ e` to the nearest double. -/
def fpOfVal (n : ℤ) (e : ℤ) : FP :=
  if 0 ≤ e then fpOfRat (n * 2 ^ e.toNat) 1 else fpOfRat n (2 ^ (-e).toNat)

/-- Correctly rounded float product. -/
def fpMul (a b : FP) : FP := fpOfVal (a.m * b.m) (a.e + b.e)

/-- Correctly rounded float sum. -/
def fpAdd (a b : FP) : FP :=
  let e := min a.e b.e
  fpOfVal (a.m * 2 ^ (a.e - e).toNat + b.m * 2 ^ (b.e - e).toNat) e

/-- Correctly rounded float quotient by a positive integer. -/
def fpDivInt (a : FP) (d : ℤ) : FP :=
  if 0 ≤ a.e then fpOfRat (a.m * 2 ^ a.e.toNat) d else fpOfRat a.m (d * 2 ^ (-a.e).toNat)

/-- The double of a small integer, exact below `2 ^ 53` — so the channel
values 0..255 convert without error. -/
def fpOfInt (n : ℤ) : FP := fpOfVal n 0

/-- Comparison of a double against `0.5`; `0.5` is itself a double, so
the program comparison is the exact one: `m * 2 ^ e < 2 ^ (-1)`. -/
def FP.ltHalf (a : FP) : Bool :=
  if 0 ≤ a.e + 1 then decide (a.m * 2 ^ (a.e + 1).toNat < 1)
  else decide (a.m < 2 ^ (-(a.e + 1)).toNat)

/-- The double nearest to the literal `0.299` (Python rounds each decimal
literal to the nearest double). -/
def c299 : FP := fpOfRat 299 1000

/-- The double nearest to the literal `0.587`. -/
def c587 : FP := fpOfRat 587 1000

/-- The double nearest to the literal `0.114`. -/
def c114 : FP := fpOfRat 114 1000

/-- The luminance of `get_text_color` as Python evaluates it: the ints
convert to doubles exactly, each product, the two left-associated sums
and the final quotient are each rounded to nearest. -/
def luminance_float (c : Nat × Nat × Nat) : FP :=
  fpDivInt
    (fpAdd (fpAdd (fpMul c299 (fpOfInt c.1)) (fpMul c587 (fpOfInt c.2.1)))
      (fpMul c114 (fpOfInt c.2.2))) 255

/-- Embedding of `get_text_color` (approach_10_hybrid.py lines 78-82,
identical in approach_01_pil_mesh.py lines 182-186) with its arithmetic
carried out in doubles as the program does: white text when the float
luminance compares below 0.5, dark `(30, 30, 30)` otherwise. -/
def get_text_color_float (c : Nat × Nat × Nat) : Nat × Nat × Nat :=
  if FP.ltHalf (luminance_float c) then (255, 255, 255) else (30, 30, 30)

/-! ## Font auto-fit (approach_10_hybrid.py `fit_text`, lines 85-93) -/

/-- Embedding of the `fit_text` size search.  `measure s` is the measured
pixel width of the (fixed) text at font size `s`; font loading and
`textbbox` are external, so the measure is a parameter.  Mirrors
`while font_size > 20: ... font_size -= 5` with the final fallback to
size 20. -/
def fit_text_size (measure : Nat → Nat) (font_size max_width : Nat) : Nat :=
  if h : 20 < font_size then
    if measure font_size ≤ max_width then font_size
    else fit_text_size measure (font_size - 5) max_width
  else 20
termination_by font_size
decreasing_by omega

/-! ## Style dispatch (approach_10_hybrid.py `generate_all`, lines 167-186) -/

/-- The four per-entry generators `generate_all` can invoke. -/
inductive StyleGen
  | premium
  | authentic
  | minimal
  | storytelling
deriving DecidableEq, Repr

/-- Embedding of the `if/elif/else` dispatch in `generate_all`
(approach_10_hybrid.py lines 177-186): the trailing `else` sends every
unknown style identifier to `_generate_premium`. -/
def generate_all_dispatch (style : String) : StyleGen :=
  if style = "premium" then .premium
  else if style = "authentic" then .authentic
  else if style = "minimal" then .minimal
  else if style = "storytelling" then .storytelling
  else .premium

/-! ## Two-stop vertical gradient
(approach_10_hybrid.py `create_gradient_background`, lines 100-115;
approach_08_storytelling.py `create_gradient`, lines 79-96) -/

/-- One interpolated channel of scanline `y`: Python computes
`int(c1 + (c2 - c1) * (y / height))`; the value is always between the two
stops, hence nonnegative, so `int` truncation is the floor. -/
def gradientChannel (c1 c2 : Nat) (y height : Nat) : Nat :=
  (Int.floor ((c1 : ℚ) + ((c2 : ℚ) - (c1 : ℚ)) * ((y : ℚ) / (height : ℚ)))).toNat

/-- Color of scanline `y` of `create_gradient_background width height
[col1, col2]` (the storytelling `create_gradient` computes the same
values). -/
def create_gradient_row (col1 col2 : String) (height y : Nat) : Nat × Nat × Nat :=
  let c1 := hex_to_rgb_d col1
  let c2 := hex_to_rgb_d col2
  (gradientChannel c1.1 c2.1 y height,
   gradientChannel c1.2.1 c2.2.1 y height,
   gradientChannel c1.2.2 c2.2.2 y height)

/-! ## Seeded randomness (Python `random` module, modelled as explicit state)

Python's global Mersenne-Twister generator is modelled by an explicit
state threaded through the calls, with an abstract linear-congruential
step.  What matters for the claims is the structure the model preserves:
`random.seed(s)` replaces the state by a function of `s` alone, and every
draw advances the state deterministically. -/

/-- One step of the modelled generator. -/
def randNext (s : Nat) : Nat := (s * 1103515245 + 12345) % 2 ^ 31

/-- State installed by `random.seed(seed)`. -/
def seedState (seed : Nat) : Nat := randNext (seed + 1)

/-- Python `random.randint(a, b)` (both bounds inclusive). -/
def randint (a b : Nat) (s : Nat) : Nat × Nat :=
  let s' := randNext s
  (a + s' % (b - a + 1), s')

/-- Python `random.choice(l)` for a palette of color strings. -/
def randChoice (l : List String) (s : Nat) : String × Nat :=
  let s' := randNext s
  (l.getD (s' % l.length) "", s')

/-! ## Mesh gradients (approach_10_hybrid.py `create_mesh_background`,
lines 118-146; approach_01_pil_mesh.py `create_mesh_gradient`, lines 55-98)

The rasterised output is a pure function of the base gradient colors and
of the list of blob descriptors (center, radius, palette color), so
byte-identity of two outputs reduces to equality of these structures. -/

/-- One radial blob: center, radius and palette color drawn from the
seeded random sequence. -/
structure Orb where
  cx : Nat
  cy : Nat
  radius : Nat
  color : String
deriving DecidableEq, Repr

/-- Everything the mesh rasteriser of `create_mesh_background` depends
on. -/
structure MeshImage where
  width : Nat
  height : Nat
  baseColors : List String
  orbs : List Orb
deriving DecidableEq, Repr

/-- Everything the blob rasteriser of `create_mesh_gradient` depends
on. -/
structure MeshGradImage where
  width : Nat
  height : Nat
  baseColor : String
  orbs : List Orb
deriving DecidableEq, Repr

/-- The per-blob loop shared by both mesh renderers: each iteration draws
`cx`, `cy`, a radius in `[lo, hi]` and a palette color from the random
sequence. -/
def meshOrbs (w h : Nat) (colors : List String) (lo hi : Nat) :
    Nat → Nat → List Orb × Nat
  | 0, s => ([], s)
  | n + 1, s =>
    let (cx, s1) := randint 0 w s
    let (cy, s2) := randint 0 h s1
    let (radius, s3) := randint lo hi s2
    let (c, s4) := randChoice colors s3
    let (rest, s5) := meshOrbs w h colors lo hi n s4
    (⟨cx, cy, radius, c⟩ :: rest, s5)

/-- Embedding of `create_mesh_background` (approach_10_hybrid.py lines
118-146): `random.seed(seed)` is called unconditionally, so the incoming
generator state `g` is discarded; four orbs with radii in `[400, 800]`
follow. -/
def create_mesh_background (width height : Nat) (colors : List String) (seed : Nat)
    (g : Nat) : MeshImage × Nat :=
  let _ := g
  let s0 := seedState seed
  let (orbs, s') := meshOrbs width height colors 400 800 4 s0
  (⟨width, height, colors.take 2, orbs⟩, s')

/-- Embedding of `create_mesh_gradient` (approach_01_pil_mesh.py lines
55-98): the guard `if seed: random.seed(seed)` only reseeds for a truthy
seed, so with `seed` absent or `0` the incoming generator state `g` flows
straight into the blob draws; five blobs with radii in
`[min(w,h)//2, max(w,h)]` follow. -/
def create_mesh_gradient (width height : Nat) (colors : List String) (seed : Option Nat)
    (g : Nat) : MeshGradImage × Nat :=
  let s0 := match seed with
    | some n => if n ≠ 0 then seedState n else g
    | none => g
  let (orbs, s') := meshOrbs width height colors (min width height / 2) (max width height) 5 s0
  (⟨width, height, colors.headD "", orbs⟩, s')

/-! ## Tilt transform (approach_3d_parallax.py `create_3d_phone_simple`,
lines 174-247) -/

/-- Coefficients of a PIL `Image.AFFINE` transform: the output pixel
`(x, y)` samples the source at `(a x + b y + c, d x + e y + f)`. -/
structure Affine where
  a : ℚ
  b : ℚ
  c : ℚ
  d : ℚ
  e : ℚ
  f : ℚ
deriving DecidableEq, Repr

/-- Source-sampling map of an affine transform. -/
def affineSrc (m : Affine) (x y : ℚ) : ℚ × ℚ :=
  (m.a * x + m.b * y + m.c, m.d * x + m.e * y + m.f)

/-- The shear coefficients built in `create_3d_phone_simple` (lines
226-238): `shear_amount = tilt / 100` and coefficient tuple
`(1, shear_amount, 0, -shear_amount * 0.3, 1, 0)`. -/
def shearCoeffs (tilt : ℚ) : Affine :=
  let shear_amount := tilt / 100
  ⟨1, shear_amount, 0, -shear_amount * (3 / 10), 1, 0⟩

/-- Width and height of a raster buffer, for dimension bookkeeping. -/
structure PhoneDims where
  width : Nat
  height : Nat
deriving DecidableEq, Repr

/-- Dimensions of the bezelled phone frame: the screenshot padded by
`phone_padding = 25` on each side (lines 179-184). -/
def phone_frame_dims (sw sh : Nat) : PhoneDims :=
  ⟨sw + 2 * 25, sh + 2 * 25⟩

/-- Dimensions of the buffer returned by `create_3d_phone_simple`: the
shear keeps `phone.size`, after which the frame is always resized by
`scale = 0.95` (lines 243-247), regardless of the tilt angle.  `int(w *
0.95)` truncates, i.e. floors the nonnegative product. -/
def create_3d_phone_simple_dims (sw sh : Nat) (tilt : ℚ) : PhoneDims :=
  let _ := tilt
  let pd := phone_frame_dims sw sh
  ⟨pd.width * 95 / 100, pd.height * 95 / 100⟩

/-! ## Glow generator (approach_3d_parallax.py `create_glow`, lines
366-382)

The loop draws concentric filled ellipses from `max_radius` inward in
steps of 5; each later (smaller) ellipse overwrites the alpha of the
pixels it covers.  The model below gives the drawn alpha field just
before the final Gaussian blur (the blur is an external PIL call). -/

/-- Alpha of the ellipse of radius `r`:
`int(255 * intensity * (r / max_radius) ** 2)`. -/
def glowAlphaVal (intensity : ℚ) (maxR r : Nat) : Nat :=
  (Int.floor (255 * intensity * ((r : ℚ) / (maxR : ℚ)) ^ 2)).toNat

/-- The drawing loop, at a pixel with squared distance `d2` from the
center: `for r in range(max_radius, 0, -5)` overwrites the accumulator
whenever the pixel lies inside the ellipse of radius `r`. -/
def glowLoop (intensity : ℚ) (maxR d2 r acc : Nat) : Nat :=
  if h : 0 < r then
    glowLoop intensity maxR d2 (r - 5)
      (if d2 ≤ r * r then glowAlphaVal intensity maxR r else acc)
  else acc
termination_by r
decreasing_by omega

/-- Squared distance of pixel `(x, y)` from the glow center
`(w // 2, h // 2)`. -/
def glow_dist2 (w h x y : Nat) : Nat :=
  (((x : Int) - ((w / 2 : Nat) : Int)).natAbs) ^ 2 +
  (((y : Int) - ((h / 2 : Nat) : Int)).natAbs) ^ 2

/-- Drawn alpha of `create_glow((w, h), color, intensity)` at pixel
`(x, y)`, before the final blur; `max_radius = min(size) // 2`. -/
def create_glow_alpha (w h : Nat) (intensity : ℚ) (x y : Nat) : Nat :=
  let maxR := min w h / 2
  glowLoop intensity maxR (glow_dist2 w h x y) maxR 0

/-! ## Raster buffers and compositing (PIL `Image` objects as used by
approach_10_hybrid.py)

A buffer is a pixel function with explicit dimensions.  `paste` follows
PIL `Image.paste(src, (x, y), mask)`: where the mask alpha is 255 the
source pixel is copied, where it is 0 the destination is kept, and
partial alphas blend; out-of-range parts of the source clip silently. -/

/-- One RGBA pixel with 8-bit channels. -/
structure Pixel where
  r : Nat
  g : Nat
  b : Nat
  a : Nat
deriving DecidableEq, Repr

/-- An addressable pixel buffer. -/
structure Buffer where
  width : Nat
  height : Nat
  pix : Nat → Nat → Pixel

/-- PIL `Image.new(mode, (w, h), c)`. -/
def Image_new (w h : Nat) (c : Pixel) : Buffer :=
  ⟨w, h, fun _ _ => c⟩

/-- Per-channel mask blend; exact at mask values 0 and 255. -/
def blend (src dst : Pixel) (m : Nat) : Pixel :=
  ⟨(src.r * m + dst.r * (255 - m)) / 255,
   (src.g * m + dst.g * (255 - m)) / 255,
   (src.b * m + dst.b * (255 - m)) / 255,
   (src.a * m + dst.a * (255 - m)) / 255⟩

/-- PIL `dst.paste(src, (ox, oy), src)` — the common pattern in the
sources where an RGBA image is its own mask; clips silently at the
destination borders. -/
def paste (dst src : Buffer) (ox oy : Int) : Buffer :=
  ⟨dst.width, dst.height, fun x y =>
    let sx := (x : Int) - ox
    let sy := (y : Int) - oy
    if 0 ≤ sx ∧ sx < (src.width : Int) ∧ 0 ≤ sy ∧ sy < (src.height : Int) then
      let p := src.pix sx.toNat sy.toNat
      blend p (dst.pix x y) p.a
    else dst.pix x y⟩

/-- Membership in the region filled by PIL
`ImageDraw.rounded_rectangle([(x0, y0), (x1, y1)], radius, fill)`: the
radius is clamped to half the box extents, and a point lies inside when
it is in the central cross or within a quarter-disc of a corner
center. -/
def inRoundedRect (x0 y0 x1 y1 : Int) (radius : Nat) (x y : Int) : Bool :=
  let r : Int := min (radius : Int) (min ((x1 - x0) / 2) ((y1 - y0) / 2))
  decide ((x0 ≤ x ∧ x ≤ x1 ∧ y0 ≤ y ∧ y ≤ y1) ∧
    ((x0 + r ≤ x ∧ x ≤ x1 - r) ∨ (y0 + r ≤ y ∧ y ≤ y1 - r) ∨
     (x - (x0 + r)) ^ 2 + (y - (y0 + r)) ^ 2 ≤ r ^ 2 ∨
     (x - (x1 - r)) ^ 2 + (y - (y0 + r)) ^ 2 ≤ r ^ 2 ∨
     (x - (x0 + r)) ^ 2 + (y - (y1 - r)) ^ 2 ≤ r ^ 2 ∨
     (x - (x1 - r)) ^ 2 + (y - (y1 - r)) ^ 2 ≤ r ^ 2))

/-- Embedding of `add_rounded_corners` (approach_10_hybrid.py lines
54-60): an opaque rounded-rectangle mask over the whole image, pasted
onto a fully transparent buffer — pixels outside the mask become
`(0, 0, 0, 0)`. -/
def add_rounded_corners (img : Buffer) (radius : Nat) : Buffer :=
  ⟨img.width, img.height, fun x y =>
    if inRoundedRect 0 0 (img.width : Int) (img.height : Int) radius (x : Int) (y : Int)
    then img.pix x y
    else ⟨0, 0, 0, 0⟩⟩

/-- External PIL operations the engine calls but does not implement:
resampling (`Image.resize` with `LANCZOS`), Gaussian blur, font metrics
(`ImageDraw.textbbox` width and height at a font size) and glyph
coverage.  Theorems constrain them only as far as each claim needs. -/
structure PILOps where
  resample : Buffer → Nat → Nat → Buffer
  blurBuf : ℚ → Buffer → Buffer
  textSize : String → Nat → Nat × Nat
  glyph : String → Nat → Nat → Nat → Bool

/-- The scaled screenshot width `int(1290 * target_width_ratio)` used in
`_load_screenshot` (line 198). -/
def target_width (wr : ℚ) : Nat :=
  (Int.floor ((1290 : ℚ) * wr)).toNat

/-- The scaled screenshot height
`int(img.height * (target_width / img.width))` (lines 199-200). -/
def scaled_height (imgW imgH : Nat) (wr : ℚ) : Nat :=
  (Int.floor ((imgH : ℚ) * (((target_width wr : Nat) : ℚ) / (imgW : ℚ)))).toNat

/-- The deterministic placeholder substituted for a missing input file:
`Image.new('RGBA', (390, 844), (40, 40, 40, 255))` (line 196). -/
def placeholder : Buffer :=
  Image_new 390 844 ⟨40, 40, 40, 255⟩

/-- Embedding of `_load_screenshot` (approach_10_hybrid.py lines
188-203): a missing file yields the placeholder, then file image and
placeholder alike are resized to the target width and corner-masked
through the same path. -/
def _load_screenshot (ops : PILOps) (fileImg : Option Buffer) (wr : ℚ) : Buffer :=
  let img := match fileImg with
    | some b => b
    | none => placeholder
  let resized := ops.resample img (target_width wr) (scaled_height img.width img.height wr)
  add_rounded_corners resized 55

/-- Embedding of `create_shadow` (approach_10_hybrid.py lines 63-75): a
transparent buffer padded by 40 on each side, a rounded rectangle of
black at the given opacity offset by `(ox, oy)`, then the external
blur. -/
def create_shadow (ops : PILOps) (img : Buffer) (blurR : ℚ) (opacity : Nat)
    (ox oy : Int) : Buffer :=
  let base : Buffer := ⟨img.width + 80, img.height + 80, fun x y =>
    if inRoundedRect (40 + ox) (40 + oy)
        ((img.width : Int) + 40 + ox) ((img.height : Int) + 40 + oy) 55 (x : Int) (y : Int)
    then ⟨0, 0, 0, opacity⟩
    else ⟨0, 0, 0, 0⟩⟩
  ops.blurBuf blurR base

/-- Embedding of `create_solid_background` (approach_10_hybrid.py lines
149-151). -/
def create_solid_background (w h : Nat) (color : String) : Buffer :=
  let c := hex_to_rgb_d color
  Image_new w h ⟨c.1, c.2.1, c.2.2, 255⟩

/-- `draw.text((tx, ty), text, fill, font)`: pixels of the text box whose
glyph coverage is set receive the fill color, opaquely; everything else
is untouched. -/
def drawText (ops : PILOps) (buf : Buffer) (text : String) (size : Nat)
    (tx ty : Int) (color : Nat × Nat × Nat) : Buffer :=
  let tsz := ops.textSize text size
  ⟨buf.width, buf.height, fun x y =>
    let dx := (x : Int) - tx
    let dy := (y : Int) - ty
    if 0 ≤ dx ∧ dx < (tsz.1 : Int) ∧ 0 ≤ dy ∧ dy < (tsz.2 : Int) ∧
        ops.glyph text size dx.toNat dy.toNat
    then ⟨color.1, color.2.1, color.2.2, 255⟩
    else buf.pix x y⟩

/-- PIL `convert('RGB')`: the alpha channel is discarded, the result is
opaque. -/
def toRGB (buf : Buffer) : Buffer :=
  ⟨buf.width, buf.height, fun x y =>
    let p := buf.pix x y
    ⟨p.r, p.g, p.b, 255⟩⟩

/-- The centered headline abscissa `(width - text_width) // 2` of
`_generate_minimal` (line 415); Python `//` is floor division. -/
def minimal_text_x (tw : Nat) : Int :=
  Int.fdiv (1290 - (tw : Int)) 2

/-- Embedding of `_generate_minimal` (approach_10_hybrid.py lines
390-418): solid background from the color scheme, screenshot at width
ratio 0.7 over its shadow, auto-contrast headline, flattened to RGB. -/
def _generate_minimal (ops : PILOps) (fileImg : Option Buffer) (colors : List String)
    (headline : String) (index : Nat) : Buffer :=
  let width : Nat := 1290
  let height : Nat := 2796
  let bg_color := colors.getD (index % colors.length) ""
  let final := create_solid_background width height bg_color
  let screenshot := _load_screenshot ops fileImg (7 / 10)
  let shadow := create_shadow ops screenshot 20 60 0 15
  let x : Int := Int.fdiv ((width : Int) - (screenshot.width : Int)) 2
  let y : Int := Int.floor ((height : ℚ) * (32 / 100))
  let f1 := paste final shadow (x - 40) (y - 25)
  let f2 := paste f1 screenshot x y
  let text_color := get_text_color (hex_to_rgb_d bg_color)
  let fsize : Nat := (Int.floor ((width : ℚ) * (7 / 100))).toNat
  let tsz := ops.textSize headline fsize
  let tx := minimal_text_x tsz.1
  let ty : Int := Int.floor ((height : ℚ) * (1 / 10))
  let f3 := drawText ops f2 headline fsize tx ty text_color
  toRGB f3

/-- A concrete instantiation of the external PIL operations, used by the
closed witnesses: nearest-neighbour resampling, a no-op blur, a simple
text metric and full glyph coverage. -/
def testOps : PILOps where
  resample := fun b w hh => ⟨w, hh, fun x y => b.pix (x * b.width / w) (y * b.height / hh)⟩
  blurBuf := fun _ b => b
  textSize := fun _ size => (2 * size, size)
  glyph := fun _ _ _ _ => true

/-! ## Helper lemmas -/

/-- A decoded hex digit is at most 15. -/
theorem hexDigit_le (c : Char) (d : Nat) (h : hexDigit c = some d) : d ≤ 15 := by
  simp only [hexDigit] at h
  split_ifs at h <;> simp_all <;> omega

/-- A hex digit is no character on which `hexDigit` fails. -/
theorem hexDigit_ne (x : Char) (d : Nat) (h : hexDigit x = some d) (c : Char)
    (hc : hexDigit c = none) : x ≠ c :=
  fun he => by rw [he, hc] at h; exact Option.noConfusion h

/-- Hex digits are not Python whitespace. -/
theorem isPyWs_false_of_hexDigit (x : Char) (d : Nat) (h : hexDigit x = some d) :
    isPyWs x = false := by
  have h1 := hexDigit_ne x d h ' ' (by decide)
  have h2 := hexDigit_ne x d h '\t' (by decide)
  have h3 := hexDigit_ne x d h '\n' (by decide)
  have h4 := hexDigit_ne x d h '\x0b' (by decide)
  have h5 := hexDigit_ne x d h '\x0c' (by decide)
  have h6 := hexDigit_ne x d h '\r' (by decide)
  simp [isPyWs, h1, h2, h3, h4, h5, h6]

/-- On a two-hex-digit slice the full `int(., 16)` grammar reduces to
plain digit parsing: no whitespace to strip, no sign, no `0x` prefix. -/
theorem pyIntHex_pair (a b : Char) (da db : Nat)
    (hda : hexDigit a = some da) (hdb : hexDigit b = some db) :
    pyIntHex [a, b] = some (16 * (da : ℤ) + (db : ℤ)) := by
  have hwa := isPyWs_false_of_hexDigit a da hda
  have hwb := isPyWs_false_of_hexDigit b db hdb
  have hap : a ≠ '+' := hexDigit_ne a da hda '+' (by decide)
  have ham : a ≠ '-' := hexDigit_ne a da hda '-' (by decide)
  have hau : a ≠ '_' := hexDigit_ne a da hda '_' (by decide)
  have hbu : b ≠ '_' := hexDigit_ne b db hdb '_' (by decide)
  have hbx : b ≠ 'x' := hexDigit_ne b db hdb 'x' (by decide)
  have hbX : b ≠ 'X' := hexDigit_ne b db hdb 'X' (by decide)
  have hstrip : stripPyWs [a, b] = [a, b] := by
    simp [stripPyWs, List.dropWhile, hwa, hwb]
  unfold pyIntHex
  rw [hstrip]
  simp only [List.head?, List.tail]
  simp [hap, ham, hbx, hbX, hexDigitsU, hau, hda, hbu, hdb]

/-! ## C5 -/

/-- C5: every style identifier outside the known set
{premium, authentic, minimal, storytelling} is dispatched by
`generate_all` to the premium generator instead of raising. -/
theorem generate_all_unknown_style_falls_back_premium
    (style : String)
    (h : style ∉ (["premium", "authentic", "minimal", "storytelling"] : List String)) :
    generate_all_dispatch style = StyleGen.premium := by
  simp only [List.mem_cons, List.mem_singleton, not_or] at h
  obtain ⟨h1, h2, h3, h4⟩ := h
  simp [generate_all_dispatch, h1, h2, h3, h4]

/-- Witness for C5 at the concrete unknown style `"glassmorphism"`
(mentioned in the module docstring but handled by no branch). -/
theorem generate_all_unknown_style_witness :
    "glassmorphism" ∉ (["premium", "authentic", "minimal", "storytelling"] : List String) ∧
    generate_all_dispatch "glassmorphism" = StyleGen.premium :=
  ⟨by decide, generate_all_unknown_style_falls_back_premium "glassmorphism" (by decide)⟩

/-! ## C6 -/

/-- C6 counterexample: the black-to-white gradient at height 100 has row
99 equal to `(252, 252, 252)` — `int` truncation of `255 * (99 / 100)` —
not `(254, 254, 254)` or `(255, 255, 255)` as the claim states. -/
theorem create_gradient_row99_not_near_white :
    create_gradient_row "#000000" "#FFFFFF" 100 99 = (252, 252, 252) ∧
    ¬ (create_gradient_row "#000000" "#FFFFFF" 100 99 = (254, 254, 254) ∨
       create_gradient_row "#000000" "#FFFFFF" 100 99 = (255, 255, 255)) := by
  have h0 : hex_to_rgb_d "#000000" = (0, 0, 0) := by decide
  have h255 : hex_to_rgb_d "#FFFFFF" = (255, 255, 255) := by decide
  have h : create_gradient_row "#000000" "#FFFFFF" 100 99 = (252, 252, 252) := by
    simp only [create_gradient_row, h0, h255]
    norm_num [gradientChannel]
    all_goals decide
  refine ⟨h, ?_⟩
  rw [h]
  decide

/-- C6 amended: row 0 of the two-stop black-to-white gradient at height
100 is exactly black and row 99 is `(252, 252, 252)`: the interpolation
ratio is `y / height` (not `y / (height - 1)`) and each channel is
truncated toward zero, not rounded to nearest. -/
theorem create_gradient_endpoint_rows :
    create_gradient_row "#000000" "#FFFFFF" 100 0 = (0, 0, 0) ∧
    create_gradient_row "#000000" "#FFFFFF" 100 99 = (252, 252, 252) := by
  have h0 : hex_to_rgb_d "#000000" = (0, 0, 0) := by decide
  have h255 : hex_to_rgb_d "#FFFFFF" = (255, 255, 255) := by decide
  constructor <;> simp only [create_gradient_row, h0, h255] <;> norm_num [gradientChannel]
  all_goals decide

/-! ## C7 -/

/-- C7: the `fit_text` search steps the candidate size down by 5 from the
start size and returns the first size whose measured width fits; for a
text that first fits at size 40 (with start 100, bound 500, floor 20) it
returns exactly 40. -/
theorem fit_text_returns_first_fitting_size
    (measure : Nat → Nat)
    (hfit : measure 40 ≤ 500)
    (habove : ∀ s, 40 < s → 500 < measure s) :
    fit_text_size measure 100 500 = 40 := by
  have step : ∀ s, 40 < s → fit_text_size measure s 500 = fit_text_size measure (s - 5) 500 := by
    intro s hs
    have h1 : 20 < s := by omega
    have h2 : ¬ measure s ≤ 500 := Nat.not_le.mpr (habove s hs)
    rw [fit_text_size]
    simp [h1, h2]
  rw [step 100 (by norm_num)]; norm_num
  rw [step 95 (by norm_num)]; norm_num
  rw [step 90 (by norm_num)]; norm_num
  rw [step 85 (by norm_num)]; norm_num
  rw [step 80 (by norm_num)]; norm_num
  rw [step 75 (by norm_num)]; norm_num
  rw [step 70 (by norm_num)]; norm_num
  rw [step 65 (by norm_num)]; norm_num
  rw [step 60 (by norm_num)]; norm_num
  rw [step 55 (by norm_num)]; norm_num
  rw [step 50 (by norm_num)]; norm_num
  rw [step 45 (by norm_num)]; norm_num
  rw [fit_text_size]
  simp [hfit]

/-- Witness for C7: a concrete measure that fits exactly from size 40
down. -/
theorem fit_text_first_fitting_witness :
    fit_text_size (fun s => if s ≤ 40 then 400 else 600) 100 500 = 40 :=
  fit_text_returns_first_fitting_size (fun s => if s ≤ 40 then 400 else 600)
    (by norm_num)
    (fun s hs => by simp [Nat.not_le.mpr hs])

/-! ## C8 -/

/-- C8 counterexample: at the integer triple `(0, 204, 68)` the exact
luminance is exactly 1/2, yet the program evaluates the expression in
doubles, the quotient rounds to the double just below 0.5
(`0.49999999999999994`), and `get_text_color` returns WHITE — refuting
both "white exactly when L < 0.5" (over the exact luminance) and
"deterministically picks the dark side at the boundary L = 0.5". -/
theorem get_text_color_white_at_exact_boundary :
    luminance (0, 204, 68) = 1 / 2 ∧
    get_text_color_float (0, 204, 68) = (255, 255, 255) ∧
    get_text_color_float (0, 204, 68) ≠ (30, 30, 30) := by
  refine ⟨by norm_num [luminance], by decide, by decide⟩

/-- C8 amended: `get_text_color` computes
`(0.299 R + 0.587 G + 0.114 B) / 255` in IEEE-754 doubles and returns
white exactly when that float compares below 0.5 — white for pure black,
dark for pure white.  At exact rational luminance 1/2 the outcome is NOT
deterministically dark: the float rounding decides the side, sending
`(0, 204, 68)` to white (float luminance `(2^53 - 1) * 2^-54`, the double
just below 0.5) but `(82, 170, 28)` to dark (float luminance exactly
`2^52 * 2^-53 = 0.5`). -/
theorem get_text_color_float_spec :
    (∀ r g b : Nat, get_text_color_float (r, g, b) = (255, 255, 255) ↔
      FP.ltHalf (luminance_float (r, g, b)) = true) ∧
    get_text_color_float (0, 0, 0) = (255, 255, 255) ∧
    get_text_color_float (255, 255, 255) = (30, 30, 30) ∧
    (luminance (0, 204, 68) = 1 / 2 ∧
      luminance_float (0, 204, 68) = ⟨9007199254740991, -54⟩ ∧
      get_text_color_float (0, 204, 68) = (255, 255, 255)) ∧
    (luminance (82, 170, 28) = 1 / 2 ∧
      luminance_float (82, 170, 28) = ⟨4503599627370496, -53⟩ ∧
      get_text_color_float (82, 170, 28) = (30, 30, 30)) := by
  refine ⟨fun r g b => ?_, by decide, by decide,
    ⟨by norm_num [luminance], by decide, by decide⟩,
    ⟨by norm_num [luminance], by decide, by decide⟩⟩
  cases hb : FP.ltHalf (luminance_float (r, g, b)) <;>
    simp [get_text_color_float, hb]

/-! ## C9 -/

/-- C9 counterexample: `"1234567"` is not exactly six hex digits, yet
`hex_to_rgb` raises nothing and returns `(0x12, 0x34, 0x56)`, silently
ignoring the seventh digit. -/
theorem hex_to_rgb_seven_digits_no_error :
    specSixHex "1234567" = false ∧ hex_to_rgb "1234567" = some (18, 52, 86) := by
  decide

/-- Evaluation of the modelled `int(., 16)` on the empty slice. -/
theorem pyIntHex_nil : pyIntHex [] = none := by decide

/-- C9 amended: `hex_to_rgb` never raises a dedicated
`InvalidColorFormat`; it feeds the slices `[0:2]`, `[2:4]`, `[4:6]` of
the hash-stripped input to Python `int(., 16)`, which accepts optional
signs, surrounding whitespace and `0x` prefixes and can return negative
values — so besides extra digits being ignored (`"1234567"`), inputs such
as `"+1+2+3"` parse to `(1, 2, 3)` and `"-1-2-3"` to negative channels
`(-1, -2, -3)`.  A hash-stripped input of length at most 4 leaves the
third slice empty and always fails with a plain `ValueError`; on exactly
six hex digits the parser returns the three 8-bit channel values. -/
theorem hex_to_rgb_int_semantics (s : String) :
    (∀ a b c d e f : Char,
      s.data.dropWhile (· = '#') = [a, b, c, d, e, f] →
      [a, b, c, d, e, f].all (fun x => (hexDigit x).isSome) = true →
      hex_to_rgb s = some (16 * (((hexDigit a).getD 0 : Nat) : ℤ) + (((hexDigit b).getD 0 : Nat) : ℤ),
                           16 * (((hexDigit c).getD 0 : Nat) : ℤ) + (((hexDigit d).getD 0 : Nat) : ℤ),
                           16 * (((hexDigit e).getD 0 : Nat) : ℤ) + (((hexDigit f).getD 0 : Nat) : ℤ)) ∧
      (0 ≤ 16 * (((hexDigit a).getD 0 : Nat) : ℤ) + (((hexDigit b).getD 0 : Nat) : ℤ) ∧
        16 * (((hexDigit a).getD 0 : Nat) : ℤ) + (((hexDigit b).getD 0 : Nat) : ℤ) ≤ 255) ∧
      (0 ≤ 16 * (((hexDigit c).getD 0 : Nat) : ℤ) + (((hexDigit d).getD 0 : Nat) : ℤ) ∧
        16 * (((hexDigit c).getD 0 : Nat) : ℤ) + (((hexDigit d).getD 0 : Nat) : ℤ) ≤ 255) ∧
      (0 ≤ 16 * (((hexDigit e).getD 0 : Nat) : ℤ) + (((hexDigit f).getD 0 : Nat) : ℤ) ∧
        16 * (((hexDigit e).getD 0 : Nat) : ℤ) + (((hexDigit f).getD 0 : Nat) : ℤ) ≤ 255)) ∧
    ((s.data.dropWhile (· = '#')).length ≤ 4 → hex_to_rgb s = none) ∧
    hex_to_rgb "+1+2+3" = some (1, 2, 3) ∧
    hex_to_rgb "-1-2-3" = some (-1, -2, -3) ∧
    hex_to_rgb "12345" = some (18, 52, 5) := by
  refine ⟨?_, ?_, by decide, by decide, by decide⟩
  · intro a b c d e f hdata hhex
    simp only [List.all_cons, List.all_nil, Bool.and_eq_true, Option.isSome_iff_exists] at hhex
    obtain ⟨⟨da, hda⟩, ⟨db, hdb⟩, ⟨dc, hdc⟩, ⟨dd, hdd⟩, ⟨de, hde⟩, ⟨df, hdf⟩, -⟩ := hhex
    have hsl1 : (s.data.dropWhile (· = '#')).take 2 = [a, b] := by rw [hdata]; rfl
    have hsl2 : ((s.data.dropWhile (· = '#')).drop 2).take 2 = [c, d] := by rw [hdata]; rfl
    have hsl3 : ((s.data.dropWhile (· = '#')).drop 4).take 2 = [e, f] := by rw [hdata]; rfl
    have hp1 := pyIntHex_pair a b da db hda hdb
    have hp2 := pyIntHex_pair c d dc dd hdc hdd
    have hp3 := pyIntHex_pair e f de df hde hdf
    have hval : hex_to_rgb s =
        some (16 * (da : ℤ) + (db : ℤ), 16 * (dc : ℤ) + (dd : ℤ), 16 * (de : ℤ) + (df : ℤ)) := by
      simp [hex_to_rgb, hsl1, hsl2, hsl3, hp1, hp2, hp3]
    have hba := hexDigit_le a da hda
    have hbb := hexDigit_le b db hdb
    have hbc := hexDigit_le c dc hdc
    have hbd := hexDigit_le d dd hdd
    have hbe := hexDigit_le e de hde
    have hbf := hexDigit_le f df hdf
    have hga : (hexDigit a).getD 0 = da := by rw [hda]; rfl
    have hgb : (hexDigit b).getD 0 = db := by rw [hdb]; rfl
    have hgc : (hexDigit c).getD 0 = dc := by rw [hdc]; rfl
    have hgd : (hexDigit d).getD 0 = dd := by rw [hdd]; rfl
    have hge : (hexDigit e).getD 0 = de := by rw [hde]; rfl
    have hgf : (hexDigit f).getD 0 = df := by rw [hdf]; rfl
    rw [hga, hgb, hgc, hgd, hge, hgf]
    refine ⟨hval, ⟨by omega, by omega⟩, ⟨by omega, by omega⟩, by omega, by omega⟩
  · intro hlen
    have h3 : ((s.data.dropWhile (· = '#')).drop 4).take 2 = [] := by
      rw [List.drop_eq_nil_of_le hlen]
      rfl
    rcases h1 : pyIntHex ((s.data.dropWhile (· = '#')).take 2) with _ | v1
    · simp [hex_to_rgb, h1]
    · rcases h2 : pyIntHex (((s.data.dropWhile (· = '#')).drop 2).take 2) with _ | v2
      · simp [hex_to_rgb, h1, h2]
      · simp [hex_to_rgb, h1, h2, h3, pyIntHex_nil]

/-- Witness for C9 at the six-hex-digit input `"aabbcc"`. -/
theorem hex_to_rgb_int_semantics_witness :
    specSixHex "aabbcc" = true ∧ hex_to_rgb "aabbcc" = some (170, 187, 204) := by
  have h := (hex_to_rgb_int_semantics "aabbcc").1 'a' 'a' 'b' 'b' 'c' 'c'
    (by decide) (by decide)
  have hv := h.1
  have ha : (hexDigit 'a').getD 0 = 10 := by decide
  have hb : (hexDigit 'b').getD 0 = 11 := by decide
  have hc : (hexDigit 'c').getD 0 = 12 := by decide
  rw [ha, hb, hc] at hv
  norm_num at hv
  exact ⟨by decide, hv⟩

/-! ## C1 -/

/-- C1 counterexample: `create_mesh_gradient` called twice in a row with
literally identical arguments (including the falsy `seed = 0`, for which
`if seed:` skips reseeding) produces different blob parameters, because
the first call advances the ambient generator state the second call then
starts from. -/
theorem create_mesh_gradient_successive_calls_differ :
    (create_mesh_gradient 10 10 ["#667eea"] (some 0) 0).1 ≠
      (create_mesh_gradient 10 10 ["#667eea"] (some 0)
        ((create_mesh_gradient 10 10 ["#667eea"] (some 0) 0).2)).1 := by
  decide

/-- C1 amended: `create_mesh_background` reseeds unconditionally, so its
output is a function of its arguments alone, for every seed; and
`create_mesh_gradient` is independent of the ambient generator state
whenever its seed is truthy (present and nonzero).  With seed `None` or
`0` its output depends on the ambient state, as the counterexample
shows. -/
theorem mesh_renderers_deterministic :
    (∀ (w h : Nat) (colors : List String) (seed : Nat) (g g' : Nat),
      (create_mesh_background w h colors seed g).1 =
        (create_mesh_background w h colors seed g').1) ∧
    (∀ (w h : Nat) (colors : List String) (n : Nat) (g g' : Nat), n ≠ 0 →
      (create_mesh_gradient w h colors (some n) g).1 =
        (create_mesh_gradient w h colors (some n) g').1) := by
  constructor
  · intro w h colors seed g g'
    rfl
  · intro w h colors n g g' hn
    simp [create_mesh_gradient, hn]

/-- Witness for C1 at a concrete truthy seed and two distinct ambient
states. -/
theorem mesh_renderers_deterministic_witness :
    (create_mesh_gradient 5 5 ["#112233"] (some 7) 0).1 =
      (create_mesh_gradient 5 5 ["#112233"] (some 7) 99).1 :=
  mesh_renderers_deterministic.2 5 5 ["#112233"] 7 0 99 (by decide)

/-! ## C2 -/

/-- C2 counterexample: for a 390×844 screenshot the untransformed phone
frame is 440×894, but `create_3d_phone_simple` at tilt 0 returns a
418×849 buffer — the unconditional `scale = 0.95` resize shrinks the
frame, so the output cannot be the frame plus padding. -/
theorem create_3d_phone_simple_shrinks_at_zero_tilt :
    ¬ (phone_frame_dims 390 844).width ≤ (create_3d_phone_simple_dims 390 844 0).width := by
  decide

/-- C2 amended: at tilt 0 the affine shear step of
`create_3d_phone_simple` is the identity on sampling coordinates, but the
function then always downscales the frame by 0.95 with truncation, so for
every screenshot the returned buffer is strictly narrower and shorter
than the untransformed frame (for the 390×844 screenshot: 418×849 against
440×894), hence never pixel-identical to it. -/
theorem create_3d_phone_simple_zero_tilt :
    (∀ x y : ℚ, affineSrc (shearCoeffs 0) x y = (x, y)) ∧
    (∀ sw sh : Nat,
      (create_3d_phone_simple_dims sw sh 0).width < (phone_frame_dims sw sh).width ∧
      (create_3d_phone_simple_dims sw sh 0).height < (phone_frame_dims sw sh).height) ∧
    create_3d_phone_simple_dims 390 844 0 = ⟨418, 849⟩ ∧
    phone_frame_dims 390 844 = ⟨440, 894⟩ := by
  refine ⟨fun x y => ?_, fun sw sh => ?_, by decide, by decide⟩
  · simp [affineSrc, shearCoeffs]
  · constructor <;>
    · simp only [create_3d_phone_simple_dims, phone_frame_dims]
      omega

/-! ## C3 -/

/-- The per-ellipse alpha grows with the ellipse radius (for nonnegative
intensity): `int(255 * i * (r / maxR) ** 2)` is monotone in `r`. -/
theorem glowAlphaVal_mono (I : ℚ) (hI : 0 ≤ I) (maxR : Nat) {r r' : Nat} (h : r ≤ r') :
    glowAlphaVal I maxR r ≤ glowAlphaVal I maxR r' := by
  rcases Nat.eq_zero_or_pos maxR with hM | hM
  · simp [glowAlphaVal, hM]
  · unfold glowAlphaVal
    apply Int.toNat_le_toNat
    apply Int.floor_le_floor
    have hM' : (0 : ℚ) < (maxR : ℚ) := by exact_mod_cast hM
    have hr : (r : ℚ) ≤ (r' : ℚ) := by exact_mod_cast h
    gcongr

/-- Invariant induction over the drawing loop: of two pixels both already
covered, the nearer keeps an alpha at most that of the farther. -/
theorem glowLoop_mono (I : ℚ) (hI : 0 ≤ I) (maxR d1 d2 : Nat) (hd : d1 ≤ d2) :
    ∀ r a1 a2, a1 ≤ a2 → (∃ r2, a2 = glowAlphaVal I maxR r2 ∧ d2 ≤ r2 * r2) →
      glowLoop I maxR d1 r a1 ≤ glowLoop I maxR d2 r a2 := by
  intro r
  induction r using Nat.strong_induction_on with
  | _ r ih =>
    intro a1 a2 ha hinv
    obtain ⟨r2, hr2, hd2⟩ := hinv
    unfold glowLoop
    by_cases hr : 0 < r
    · simp only [dif_pos hr]
      by_cases h2 : d2 ≤ r * r
      · have h1 : d1 ≤ r * r := le_trans hd h2
        simp only [if_pos h1, if_pos h2]
        exact ih (r - 5) (by omega) _ _ le_rfl ⟨r, rfl, h2⟩
      · simp only [if_neg h2]
        by_cases h1 : d1 ≤ r * r
        · simp only [if_pos h1]
          refine ih (r - 5) (by omega) _ _ ?_ ⟨r2, hr2, hd2⟩
          rw [hr2]
          apply glowAlphaVal_mono I hI maxR
          by_contra hcon
          push_neg at hcon
          have : r2 * r2 ≤ r * r := Nat.mul_le_mul (le_of_lt hcon) (le_of_lt hcon)
          omega
        · simp only [if_neg h1]
          exact ih (r - 5) (by omega) _ _ ha ⟨r2, hr2, hd2⟩
    · simp only [dif_neg hr]
      exact ha

/-- C3 counterexample: in a 24×24 glow at intensity 1/2 the center pixel
gets drawn alpha 3 while the pixel at distance 10 from the center gets
127 — alpha strictly increases away from the center, refuting the claimed
non-increasing radial falloff (the formula `intensity * (r/maxRadius)^2`
grows with `r`, and smaller ellipses are drawn last). -/
theorem create_glow_alpha_center_dimmer :
    create_glow_alpha 24 24 (1 / 2) 12 12 = 3 ∧
    create_glow_alpha 24 24 (1 / 2) 22 12 = 127 ∧
    ¬ create_glow_alpha 24 24 (1 / 2) 22 12 ≤ create_glow_alpha 24 24 (1 / 2) 12 12 := by
  have hc : create_glow_alpha 24 24 (1 / 2) 12 12 = 3 := by
    unfold create_glow_alpha glow_dist2
    norm_num
    unfold glowLoop
    norm_num [glowAlphaVal]
    unfold glowLoop
    norm_num [glowAlphaVal]
    unfold glowLoop
    norm_num [glowAlphaVal]
    unfold glowLoop
    norm_num
    decide
  have he : create_glow_alpha 24 24 (1 / 2) 22 12 = 127 := by
    unfold create_glow_alpha glow_dist2
    norm_num
    unfold glowLoop
    norm_num [glowAlphaVal]
    unfold glowLoop
    norm_num
    unfold glowLoop
    norm_num
    unfold glowLoop
    norm_num
    decide
  exact ⟨hc, he, by rw [hc, he]; omega⟩

/-- C3 amended: for every glow size, nonnegative intensity and pair of
pixels inside the drawn disc, the drawn alpha field of `create_glow`
(before the final external blur) is monotone NON-DECREASING in the
distance from the center: the glow is dimmest at the center and brightest
at the rim, with each band's alpha given by
`int(255 * intensity * (r / max_radius) ** 2)` at the smallest covering
drawn radius `r`. -/
theorem create_glow_alpha_monotone
    (w h : Nat) (I : ℚ) (x1 y1 x2 y2 : Nat)
    (hI : 0 ≤ I)
    (hM : 0 < min w h / 2)
    (hd12 : glow_dist2 w h x1 y1 ≤ glow_dist2 w h x2 y2)
    (hd2 : glow_dist2 w h x2 y2 ≤ (min w h / 2) * (min w h / 2)) :
    create_glow_alpha w h I x1 y1 ≤ create_glow_alpha w h I x2 y2 := by
  unfold create_glow_alpha
  unfold glowLoop
  simp only [dif_pos hM, if_pos hd2, if_pos (le_trans hd12 hd2)]
  exact glowLoop_mono I hI (min w h / 2) _ _ hd12 _ _ _ le_rfl ⟨min w h / 2, rfl, hd2⟩

/-- Witness for C3 in the 24×24 glow at intensity 1/2: center against the
pixel at squared distance 100. -/
theorem create_glow_alpha_monotone_witness :
    0 < min 24 24 / 2 ∧
    glow_dist2 24 24 12 12 ≤ glow_dist2 24 24 22 12 ∧
    glow_dist2 24 24 22 12 ≤ (min 24 24 / 2) * (min 24 24 / 2) ∧
    create_glow_alpha 24 24 (1 / 2) 12 12 ≤ create_glow_alpha 24 24 (1 / 2) 22 12 :=
  ⟨by decide, by decide, by decide,
    create_glow_alpha_monotone 24 24 (1 / 2) 12 12 22 12 (by norm_num) (by decide)
      (by decide) (by decide)⟩

/-! ## C10 -/

/-- The corner pixel `(0, 0)` lies outside every rounded-rectangle mask
over a box of extents at least 2 with a positive radius. -/
theorem inRoundedRect_origin_false (W H : Int) (radius : Nat)
    (hW : 2 ≤ W) (hH : 2 ≤ H) (hr0 : 1 ≤ (radius : Int)) :
    inRoundedRect 0 0 W H radius 0 0 = false := by
  simp only [inRoundedRect, decide_eq_false_iff_not]
  intro hmem
  obtain ⟨-, hrest⟩ := hmem
  set r : Int := min (radius : Int) (min ((W - 0) / 2) ((H - 0) / 2)) with hrdef
  have hr1 : 1 ≤ r := by omega
  have hrW : r ≤ W / 2 := by omega
  have hrH : r ≤ H / 2 := by omega
  have hWr : r ≤ W - r := by omega
  have hHr : r ≤ H - r := by omega
  rcases hrest with h | h | h | h | h | h
  · omega
  · omega
  · nlinarith
  · nlinarith
  · nlinarith
  · nlinarith

/-- C10: for every width-ratio argument, `_load_screenshot` returns a
buffer of width exactly `int(1290 * ratio)`, whether or not the input
file exists; both the decoded file image and the 390×844 placeholder go
through the same resample-then-corner-mask path, and the result carries
the rounded-corner RGBA shape (its extreme corner pixel is fully
transparent). -/
theorem load_screenshot_uniform_width (ops : PILOps) (img : Buffer) (wr : ℚ)
    (hdim : ∀ b w hh, (ops.resample b w hh).width = w ∧ (ops.resample b w hh).height = hh)
    (hW : 2 ≤ target_width wr)
    (hH : 2 ≤ scaled_height 390 844 wr) :
    (_load_screenshot ops (some img) wr).width = target_width wr ∧
    (_load_screenshot ops none wr).width = target_width wr ∧
    _load_screenshot ops (some img) wr =
      add_rounded_corners
        (ops.resample img (target_width wr) (scaled_height img.width img.height wr)) 55 ∧
    _load_screenshot ops none wr =
      add_rounded_corners
        (ops.resample placeholder (target_width wr) (scaled_height 390 844 wr)) 55 ∧
    ((_load_screenshot ops none wr).pix 0 0).a = 0 := by
  have hw1 : (_load_screenshot ops (some img) wr).width = target_width wr := by
    simp [_load_screenshot, add_rounded_corners, (hdim _ _ _).1]
  have hw2 : (_load_screenshot ops none wr).width = target_width wr := by
    simp [_load_screenshot, add_rounded_corners, (hdim _ _ _).1]
  refine ⟨hw1, hw2, rfl, rfl, ?_⟩
  have hRW := (hdim placeholder (target_width wr) (scaled_height 390 844 wr)).1
  have hRH := (hdim placeholder (target_width wr) (scaled_height 390 844 wr)).2
  show ((add_rounded_corners
      (ops.resample placeholder (target_width wr) (scaled_height 390 844 wr)) 55).pix 0 0).a = 0
  rw [add_rounded_corners]
  rw [hRW, hRH]
  have hfalse := inRoundedRect_origin_false ((target_width wr : Nat) : Int)
    ((scaled_height 390 844 wr : Nat) : Int) 55 (by exact_mod_cast hW) (by exact_mod_cast hH)
    (by norm_num)
  simp [hfalse]

/-- Witness for C10 at the ratio 0.7 used by `_generate_minimal` and a
missing input file. -/
theorem load_screenshot_uniform_width_witness :
    target_width (7 / 10) = 903 ∧
    (_load_screenshot testOps none (7 / 10)).width = target_width (7 / 10) ∧
    ((_load_screenshot testOps none (7 / 10)).pix 0 0).a = 0 := by
  have h903 : target_width (7 / 10) = 903 := by
    norm_num [target_width]
    decide
  have h1954 : scaled_height 390 844 (7 / 10) = 1954 := by
    rw [scaled_height, h903]
    norm_num
    decide
  have h := load_screenshot_uniform_width testOps placeholder (7 / 10)
    (fun b w hh => ⟨rfl, rfl⟩) (by rw [h903]; norm_num) (by rw [h1954]; norm_num)
  exact ⟨h903, h.2.1, h.2.2.2.2⟩

/-! ## C4 -/

/-- The screenshot target width at the `_generate_minimal` ratio 0.7. -/
theorem target_width_0_7 : target_width (7 / 10) = 903 := by
  norm_num [target_width]
  decide

/-- The scaled placeholder height at the `_generate_minimal` ratio 0.7. -/
theorem scaled_height_0_7 : scaled_height 390 844 (7 / 10) = 1954 := by
  rw [scaled_height, target_width_0_7]
  norm_num
  decide

/-- C4: with a missing input file, the minimal-style pipeline for the
configuration `{style: "minimal", colorScheme: ["#000000"],
screenshots: [{headline: "Test"}]}` substitutes the deterministic dark
placeholder and still produces a full-size 1290×2796 opaque image whose
screenshot region shows the placeholder fill `(40, 40, 40)` (sampled at
pixel `(644, 1794)`, the center of the pasted subject) and whose headline
box is centered horizontally (left and right gaps differ by at most one
pixel).  Every stage is total — the model never raises, matching the
code, where the missing path only selects the placeholder branch.  The
external resample is constrained only to map constant images to constant
images, and the font metric to report a headline box at size 90 no wider
than the canvas and at most 1500 pixels tall. -/
theorem generate_minimal_missing_file_ok (ops : PILOps)
    (hres : ∀ (c : Pixel) (w0 h0 w hh : Nat),
      ops.resample (Image_new w0 h0 c) w hh = Image_new w hh c)
    (htw : (ops.textSize "Test" 90).1 ≤ 1290)
    (hth : (ops.textSize "Test" 90).2 ≤ 1500) :
    (_generate_minimal ops none ["#000000"] "Test" 0).width = 1290 ∧
    (_generate_minimal ops none ["#000000"] "Test" 0).height = 2796 ∧
    (∀ x y : Nat, ((_generate_minimal ops none ["#000000"] "Test" 0).pix x y).a = 255) ∧
    (_generate_minimal ops none ["#000000"] "Test" 0).pix 644 1794 = ⟨40, 40, 40, 255⟩ ∧
    0 ≤ (1290 - ((ops.textSize "Test" 90).1 : Int)) -
        2 * minimal_text_x (ops.textSize "Test" 90).1 ∧
    (1290 - ((ops.textSize "Test" 90).1 : Int)) -
        2 * minimal_text_x (ops.textSize "Test" 90).1 ≤ 1 := by
  refine ⟨rfl, rfl, fun x y => rfl, ?_, ?_, ?_⟩
  · have hpc : _load_screenshot ops none (7 / 10) =
        add_rounded_corners (Image_new 903 1954 ⟨40, 40, 40, 255⟩) 55 := by
      have h1 : _load_screenshot ops none (7 / 10) =
          add_rounded_corners
            (ops.resample placeholder (target_width (7 / 10))
              (scaled_height 390 844 (7 / 10))) 55 := rfl
      rw [h1, target_width_0_7, scaled_height_0_7,
        show placeholder = Image_new 390 844 ⟨40, 40, 40, 255⟩ from rfl, hres]
    have hbg : create_solid_background 1290 2796 "#000000" =
        Image_new 1290 2796 ⟨0, 0, 0, 255⟩ := by
      unfold create_solid_background
      rw [show hex_to_rgb_d "#000000" = (0, 0, 0) from by decide]
    have hy894 : (Int.floor ((2796 : ℚ) * (32 / 100))) = 894 := by norm_num
    have hty279 : (Int.floor ((2796 : ℚ) * (1 / 10))) = 279 := by norm_num
    have hfsize : (Int.floor ((1290 : ℚ) * (7 / 100))).toNat = 90 := by
      norm_num
      decide
    have hgetd : (["#000000"] : List String).getD
        (0 % (["#000000"] : List String).length) "" = "#000000" := rfl
    have hw903 : (add_rounded_corners (Image_new 903 1954 ⟨40, 40, 40, 255⟩) 55).width =
        903 := rfl
    have hx193 : Int.fdiv ((1290 : Int) - (903 : Int)) 2 = 193 := by decide
    simp only [_generate_minimal, hpc, hbg, hgetd, hw903, Nat.cast_ofNat, hy894, hty279,
      hfsize, hx193]
    have hdraw : ∀ (b : Buffer) (col : Nat × Nat × Nat),
        (drawText ops b "Test" 90 (minimal_text_x (ops.textSize "Test" 90).1) 279 col).pix
          644 1794 = b.pix 644 1794 := by
      intro b col
      unfold drawText
      simp only []
      rw [if_neg]
      rintro ⟨-, -, -, h4, -⟩
      omega
    simp only [toRGB]
    rw [hdraw]
    have hp : (paste
        (paste (Image_new 1290 2796 ⟨0, 0, 0, 255⟩)
          (create_shadow ops
            (add_rounded_corners (Image_new 903 1954 ⟨40, 40, 40, 255⟩) 55) 20 60 0 15)
          (193 - 40) (894 - 25))
        (add_rounded_corners (Image_new 903 1954 ⟨40, 40, 40, 255⟩) 55) 193 894).pix 644 1794 =
        ⟨40, 40, 40, 255⟩ := by
      have hh1954 : (add_rounded_corners (Image_new 903 1954 ⟨40, 40, 40, 255⟩) 55).height =
          1954 := rfl
      have hshotpix : (add_rounded_corners (Image_new 903 1954 ⟨40, 40, 40, 255⟩) 55).pix
          ((644 : Int) - 193).toNat ((1794 : Int) - 894).toNat = ⟨40, 40, 40, 255⟩ := by
        norm_num [add_rounded_corners, Image_new]
        decide
      conv_lhs => rw [paste]
      simp only [hw903, hh1954, Nat.cast_ofNat]
      rw [if_pos (by norm_num)]
      rw [hshotpix]
      simp [blend]
    rw [hp]
  · rw [minimal_text_x, Int.fdiv_eq_ediv _ (by norm_num)]
    omega
  · rw [minimal_text_x, Int.fdiv_eq_ediv _ (by norm_num)]
    omega

/-- Witness for C4 at the concrete test operations. -/
theorem generate_minimal_missing_file_witness :
    (_generate_minimal testOps none ["#000000"] "Test" 0).width = 1290 ∧
    (_generate_minimal testOps none ["#000000"] "Test" 0).height = 2796 ∧
    ((_generate_minimal testOps none ["#000000"] "Test" 0).pix 0 0).a = 255 ∧
    (_generate_minimal testOps none ["#000000"] "Test" 0).pix 644 1794 = ⟨40, 40, 40, 255⟩ :=
  have h := generate_minimal_missing_file_ok testOps (fun c w0 h0 w hh => rfl)
    (by decide) (by decide)
  ⟨h.1, h.2.1, h.2.2.1 0 0, h.2.2.2.1⟩
